import Mathlib

/-!
Shallow embedding of the `shall` command-line hashing tool (src/main.rs).

The tool computes MD5 / SHA1 / SHA256 / SHA512 digests of a literal string,
a file, standard input, or every file directly inside a directory, and prints
one row per (algorithm, subject).  The digest primitives come from the `md5`,
`sha1` and `sha2` crates, which implement the standard algorithms
(RFC 1321 and FIPS 180-4); they are embedded here as executable functions on
byte lists (`List Nat`, each byte `< 256`), with machine words as `Nat`
reduced modulo `2 ^ 32` / `2 ^ 64` at each arithmetic step.
-/

set_option maxRecDepth 100000

namespace Shall

/-! ## Word helpers -/

/-- `2 ^ 32`, the modulus of 32-bit words. -/
def M32 : Nat := 4294967296

/-- `2 ^ 64`, the modulus of 64-bit words. -/
def M64 : Nat := 18446744073709551616

/-- All-ones 32-bit mask, used for bitwise complement via xor. -/
def mask32 : Nat := 4294967295

/-- All-ones 64-bit mask. -/
def mask64 : Nat := 18446744073709551615

/-- Left-rotation of a 32-bit word. -/
def rotl32 (x s : Nat) : Nat := ((x <<< s) ||| (x >>> (32 - s))) &&& mask32

/-- Right-rotation of a 32-bit word. -/
def rotr32 (x s : Nat) : Nat := ((x >>> s) ||| (x <<< (32 - s))) &&& mask32

/-- Left-rotation of a 64-bit word. -/
def rotl64 (x s : Nat) : Nat := ((x <<< s) ||| (x >>> (64 - s))) &&& mask64

/-- Right-rotation of a 64-bit word. -/
def rotr64 (x s : Nat) : Nat := ((x >>> s) ||| (x <<< (64 - s))) &&& mask64

/-- The four bytes of a 32-bit word, little-endian (least significant first). -/
def le32 (w : Nat) : List Nat :=
  [w % 256, w / 256 % 256, w / 65536 % 256, w / 16777216 % 256]

/-- The four bytes of a 32-bit word, big-endian (most significant first). -/
def be32 (w : Nat) : List Nat :=
  [w / 16777216 % 256, w / 65536 % 256, w / 256 % 256, w % 256]

/-- The eight bytes of a 64-bit word, little-endian. -/
def le64 (w : Nat) : List Nat :=
  le32 (w % M32) ++ le32 (w / M32)

/-- The eight bytes of a 64-bit word, big-endian. -/
def be64 (w : Nat) : List Nat :=
  be32 (w / M32 % M32) ++ be32 (w % M32)

/-- The sixteen bytes of a 128-bit quantity, big-endian. -/
def be128 (w : Nat) : List Nat :=
  be64 (w / M64) ++ be64 (w % M64)

/-- Read the `i`-th little-endian 32-bit word of a byte block. -/
def le32At (b : List Nat) (i : Nat) : Nat :=
  b.getD (4 * i) 0 + b.getD (4 * i + 1) 0 * 256 +
    b.getD (4 * i + 2) 0 * 65536 + b.getD (4 * i + 3) 0 * 16777216

/-- Read the `i`-th big-endian 32-bit word of a byte block. -/
def be32At (b : List Nat) (i : Nat) : Nat :=
  b.getD (4 * i) 0 * 16777216 + b.getD (4 * i + 1) 0 * 65536 +
    b.getD (4 * i + 2) 0 * 256 + b.getD (4 * i + 3) 0

/-- Read the `i`-th big-endian 64-bit word of a byte block. -/
def be64At (b : List Nat) (i : Nat) : Nat :=
  be32At b (2 * i) * M32 + be32At b (2 * i + 1)

/-- Split a byte list into chunks of `n` bytes (fuelled by the list length;
`n` is always `64` or `128` here and the input length is a multiple of `n`). -/
def chunksGo (n : Nat) : Nat → List Nat → List (List Nat)
  | 0, _ => []
  | _, [] => []
  | fuel + 1, l => l.take n :: chunksGo n fuel (l.drop n)

/-- Split a byte list into chunks of `n` bytes. -/
def chunks (n : Nat) (l : List Nat) : List (List Nat) := chunksGo n l.length l

/-! ## MD5 (RFC 1321, as implemented by the `md5` crate) -/

/-- MD5 round constants `K[i] = floor(abs(sin(i + 1)) * 2 ^ 32)`. -/
def md5K : List Nat :=
  [
  3614090360, 3905402710, 606105819, 3250441966, 4118548399, 1200080426, 2821735955, 4249261313,
  1770035416, 2336552879, 4294925233, 2304563134, 1804603682, 4254626195, 2792965006, 1236535329,
  4129170786, 3225465664, 643717713, 3921069994, 3593408605, 38016083, 3634488961, 3889429448,
  568446438, 3275163606, 4107603335, 1163531501, 2850285829, 4243563512, 1735328473, 2368359562,
  4294588738, 2272392833, 1839030562, 4259657740, 2763975236, 1272893353, 4139469664, 3200236656,
  681279174, 3936430074, 3572445317, 76029189, 3654602809, 3873151461, 530742520, 3299628645,
  4096336452, 1126891415, 2878612391, 4237533241, 1700485571, 2399980690, 4293915773, 2240044497,
  1873313359, 4264355552, 2734768916, 1309151649, 4149444226, 3174756917, 718787259, 3951481745]

/-- MD5 per-round left-rotation amounts. -/
def md5S : List Nat :=
  [
  7, 12, 17, 22, 7, 12, 17, 22, 7, 12, 17, 22, 7, 12, 17, 22,
  5, 9, 14, 20, 5, 9, 14, 20, 5, 9, 14, 20, 5, 9, 14, 20,
  4, 11, 16, 23, 4, 11, 16, 23, 4, 11, 16, 23, 4, 11, 16, 23,
  6, 10, 15, 21, 6, 10, 15, 21, 6, 10, 15, 21, 6, 10, 15, 21]

/-- One MD5 round: state is `(a, b, c, d)`, all words `< 2 ^ 32`. -/
def md5Step (m : List Nat) (st : Nat × Nat × Nat × Nat) (i : Nat) :
    Nat × Nat × Nat × Nat :=
  let a := st.1
  let b := st.2.1
  let c := st.2.2.1
  let d := st.2.2.2
  let fg : Nat × Nat :=
    if i < 16 then ((b &&& c) ||| ((mask32 ^^^ b) &&& d), i)
    else if i < 32 then ((d &&& b) ||| ((mask32 ^^^ d) &&& c), (5 * i + 1) % 16)
    else if i < 48 then (b ^^^ c ^^^ d, (3 * i + 5) % 16)
    else (c ^^^ (b ||| (mask32 ^^^ d)), (7 * i) % 16)
  let f := (fg.1 + a + md5K.getD i 0 + le32At m fg.2) % M32
  (d, (b + rotl32 f (md5S.getD i 0)) % M32, b, c)

/-- MD5 compression of one 64-byte block. -/
def md5Compress (st : Nat × Nat × Nat × Nat) (block : List Nat) :
    Nat × Nat × Nat × Nat :=
  let r := (List.range 64).foldl (md5Step block) st
  ((st.1 + r.1) % M32, (st.2.1 + r.2.1) % M32,
    (st.2.2.1 + r.2.2.1) % M32, (st.2.2.2 + r.2.2.2) % M32)

/-- MD5 initial state. -/
def md5Init : Nat × Nat × Nat × Nat :=
  (1732584193, 4023233417, 2562383102, 271733878)

/-- MD5 padding: `0x80`, zeros to 56 mod 64, then the 64-bit little-endian
bit length. -/
def md5Pad (msg : List Nat) : List Nat :=
  msg ++ [128] ++ List.replicate ((120 - (msg.length + 1) % 64) % 64) 0 ++
    le64 (8 * msg.length)

/-- MD5 state after absorbing the whole padded message. -/
def md5FinalState (msg : List Nat) : Nat × Nat × Nat × Nat :=
  (chunks 64 (md5Pad msg)).foldl md5Compress md5Init

/-- The 16 digest bytes of MD5. -/
def md5Hash (msg : List Nat) : List Nat :=
  let st := md5FinalState msg
  le32 st.1 ++ le32 st.2.1 ++ le32 st.2.2.1 ++ le32 st.2.2.2

/-! ## Hex encoding (the `hex` crate: lowercase, two chars per byte) -/

/-- The sixteen lowercase hex digit characters. -/
def hexDigits : List Char := "0123456789abcdef".data

/-- The two lowercase hex characters of one byte. -/
def hexByte (b : Nat) : List Char :=
  [hexDigits.getD (b / 16) '0', hexDigits.getD (b % 16) '0']

/-- Lowercase hex encoding of a byte list. -/
def hexEncode (bs : List Nat) : String :=
  String.mk (bs.foldr (fun b acc => hexByte b ++ acc) [])

/-- UTF-8 encoding of one character (what Rust `str::as_bytes` stores). -/
def utf8Char (c : Char) : List Nat :=
  let n := c.toNat
  if n < 128 then [n]
  else if n < 2048 then [192 + n / 64, 128 + n % 64]
  else if n < 65536 then [224 + n / 4096, 128 + n / 64 % 64, 128 + n % 64]
  else [240 + n / 262144, 128 + n / 4096 % 64, 128 + n / 64 % 64, 128 + n % 64]

/-- UTF-8 bytes of a string (Rust `str::as_bytes`). -/
def strBytes (s : String) : List Nat :=
  s.data.foldr (fun c acc => utf8Char c ++ acc) []


/-! ## SHA1 (FIPS 180-4, as implemented by the `sha1` crate) -/

/-- SHA1 message padding: `0x80`, zeros to 56 mod 64, 64-bit big-endian bit
length (shared with SHA256). -/
def shaPad (msg : List Nat) : List Nat :=
  msg ++ [128] ++ List.replicate ((120 - (msg.length + 1) % 64) % 64) 0 ++
    be64 (8 * msg.length)

/-- The 80-entry SHA1 message schedule of one 64-byte block. -/
def sha1W (block : List Nat) : List Nat :=
  (List.range 80).foldl (fun w i =>
    if i < 16 then w ++ [be32At block i]
    else
      w ++ [rotl32 ((w.getD (i - 3) 0) ^^^ (w.getD (i - 8) 0) ^^^
        (w.getD (i - 14) 0) ^^^ (w.getD (i - 16) 0)) 1]) []

/-- One SHA1 round: state is `(a, b, c, d, e)`. -/
def sha1Step (w : List Nat) (st : Nat × Nat × Nat × Nat × Nat) (i : Nat) :
    Nat × Nat × Nat × Nat × Nat :=
  let a := st.1
  let b := st.2.1
  let c := st.2.2.1
  let d := st.2.2.2.1
  let e := st.2.2.2.2
  let fk : Nat × Nat :=
    if i < 20 then ((b &&& c) ||| ((mask32 ^^^ b) &&& d), 1518500249)
    else if i < 40 then (b ^^^ c ^^^ d, 1859775393)
    else if i < 60 then ((b &&& c) ||| (b &&& d) ||| (c &&& d), 2400959708)
    else (b ^^^ c ^^^ d, 3395469782)
  ((rotl32 a 5 + fk.1 + e + fk.2 + w.getD i 0) % M32, a, rotl32 b 30, c, d)

/-- SHA1 compression of one 64-byte block. -/
def sha1Compress (st : Nat × Nat × Nat × Nat × Nat) (block : List Nat) :
    Nat × Nat × Nat × Nat × Nat :=
  let r := (List.range 80).foldl (sha1Step (sha1W block)) st
  ((st.1 + r.1) % M32, (st.2.1 + r.2.1) % M32, (st.2.2.1 + r.2.2.1) % M32,
    (st.2.2.2.1 + r.2.2.2.1) % M32, (st.2.2.2.2 + r.2.2.2.2) % M32)

/-- SHA1 initial state. -/
def sha1Init : Nat × Nat × Nat × Nat × Nat :=
  (1732584193, 4023233417, 2562383102, 271733878, 3285377520)

/-- SHA1 state after absorbing the whole padded message. -/
def sha1FinalState (msg : List Nat) : Nat × Nat × Nat × Nat × Nat :=
  (chunks 64 (shaPad msg)).foldl sha1Compress sha1Init

/-- The 20 digest bytes of SHA1. -/
def sha1Hash (msg : List Nat) : List Nat :=
  let st := sha1FinalState msg
  be32 st.1 ++ be32 st.2.1 ++ be32 st.2.2.1 ++ be32 st.2.2.2.1 ++ be32 st.2.2.2.2

/-! ## SHA256 (FIPS 180-4, as implemented by the `sha2` crate) -/

/-- SHA256 round constants. -/
def sha256K : List Nat :=
  [
  1116352408, 1899447441, 3049323471, 3921009573, 961987163, 1508970993, 2453635748, 2870763221,
  3624381080, 310598401, 607225278, 1426881987, 1925078388, 2162078206, 2614888103, 3248222580,
  3835390401, 4022224774, 264347078, 604807628, 770255983, 1249150122, 1555081692, 1996064986,
  2554220882, 2821834349, 2952996808, 3210313671, 3336571891, 3584528711, 113926993, 338241895,
  666307205, 773529912, 1294757372, 1396182291, 1695183700, 1986661051, 2177026350, 2456956037,
  2730485921, 2820302411, 3259730800, 3345764771, 3516065817, 3600352804, 4094571909, 275423344,
  430227734, 506948616, 659060556, 883997877, 958139571, 1322822218, 1537002063, 1747873779,
  1955562222, 2024104815, 2227730452, 2361852424, 2428436474, 2756734187, 3204031479, 3329325298]

/-- The 64-entry SHA256 message schedule of one 64-byte block. -/
def sha256W (block : List Nat) : List Nat :=
  (List.range 64).foldl (fun w i =>
    if i < 16 then w ++ [be32At block i]
    else
      let w15 := w.getD (i - 15) 0
      let w2 := w.getD (i - 2) 0
      let s0 := (rotr32 w15 7) ^^^ (rotr32 w15 18) ^^^ (w15 >>> 3)
      let s1 := (rotr32 w2 17) ^^^ (rotr32 w2 19) ^^^ (w2 >>> 10)
      w ++ [(w.getD (i - 16) 0 + s0 + w.getD (i - 7) 0 + s1) % M32]) []

/-- The SHA256 working state `(a, b, c, d, e, f, g, h)`. -/
def S8 : Type := Nat × Nat × Nat × Nat × Nat × Nat × Nat × Nat

/-- One SHA256 round. -/
def sha256Step (w : List Nat) (st : S8) (i : Nat) : S8 :=
  let a := st.1
  let b := st.2.1
  let c := st.2.2.1
  let d := st.2.2.2.1
  let e := st.2.2.2.2.1
  let f := st.2.2.2.2.2.1
  let g := st.2.2.2.2.2.2.1
  let h := st.2.2.2.2.2.2.2
  let x1 := (rotr32 e 6) ^^^ (rotr32 e 11) ^^^ (rotr32 e 25)
  let ch := (e &&& f) ^^^ ((mask32 ^^^ e) &&& g)
  let t1 := (h + x1 + ch + sha256K.getD i 0 + w.getD i 0) % M32
  let x0 := (rotr32 a 2) ^^^ (rotr32 a 13) ^^^ (rotr32 a 22)
  let mj := (a &&& b) ^^^ (a &&& c) ^^^ (b &&& c)
  let t2 := (x0 + mj) % M32
  ((t1 + t2) % M32, a, b, c, (d + t1) % M32, e, f, g)

/-- SHA256 compression of one 64-byte block. -/
def sha256Compress (st : S8) (block : List Nat) : S8 :=
  let r := (List.range 64).foldl (sha256Step (sha256W block)) st
  ((st.1 + r.1) % M32, (st.2.1 + r.2.1) % M32, (st.2.2.1 + r.2.2.1) % M32,
    (st.2.2.2.1 + r.2.2.2.1) % M32, (st.2.2.2.2.1 + r.2.2.2.2.1) % M32,
    (st.2.2.2.2.2.1 + r.2.2.2.2.2.1) % M32,
    (st.2.2.2.2.2.2.1 + r.2.2.2.2.2.2.1) % M32,
    (st.2.2.2.2.2.2.2 + r.2.2.2.2.2.2.2) % M32)

/-- SHA256 initial state. -/
def sha256Init : S8 :=
  (1779033703, 3144134277, 1013904242, 2773480762,
    1359893119, 2600822924, 528734635, 1541459225)

/-- SHA256 state after absorbing the whole padded message. -/
def sha256FinalState (msg : List Nat) : S8 :=
  (chunks 64 (shaPad msg)).foldl sha256Compress sha256Init

/-- The 32 digest bytes of SHA256. -/
def sha256Hash (msg : List Nat) : List Nat :=
  let st := sha256FinalState msg
  be32 st.1 ++ be32 st.2.1 ++ be32 st.2.2.1 ++ be32 st.2.2.2.1 ++
    be32 st.2.2.2.2.1 ++ be32 st.2.2.2.2.2.1 ++ be32 st.2.2.2.2.2.2.1 ++
    be32 st.2.2.2.2.2.2.2

/-! ## SHA512 (FIPS 180-4, as implemented by the `sha2` crate) -/

/-- SHA512 round constants. -/
def sha512K : List Nat :=
  [
  4794697086780616226, 8158064640168781261, 13096744586834688815, 16840607885511220156,
  4131703408338449720, 6480981068601479193, 10538285296894168987, 12329834152419229976,
  15566598209576043074, 1334009975649890238, 2608012711638119052, 6128411473006802146,
  8268148722764581231, 9286055187155687089, 11230858885718282805, 13951009754708518548,
  16472876342353939154, 17275323862435702243, 1135362057144423861, 2597628984639134821,
  3308224258029322869, 5365058923640841347, 6679025012923562964, 8573033837759648693,
  10970295158949994411, 12119686244451234320, 12683024718118986047, 13788192230050041572,
  14330467153632333762, 15395433587784984357, 489312712824947311, 1452737877330783856,
  2861767655752347644, 3322285676063803686, 5560940570517711597, 5996557281743188959,
  7280758554555802590, 8532644243296465576, 9350256976987008742, 10552545826968843579,
  11727347734174303076, 12113106623233404929, 14000437183269869457, 14369950271660146224,
  15101387698204529176, 15463397548674623760, 17586052441742319658, 1182934255886127544,
  1847814050463011016, 2177327727835720531, 2830643537854262169, 3796741975233480872,
  4115178125766777443, 5681478168544905931, 6601373596472566643, 7507060721942968483,
  8399075790359081724, 8693463985226723168, 9568029438360202098, 10144078919501101548,
  10430055236837252648, 11840083180663258601, 13761210420658862357, 14299343276471374635,
  14566680578165727644, 15097957966210449927, 16922976911328602910, 17689382322260857208,
  500013540394364858, 748580250866718886, 1242879168328830382, 1977374033974150939,
  2944078676154940804, 3659926193048069267, 4368137639120453308, 4836135668995329356,
  5532061633213252278, 6448918945643986474, 6902733635092675308, 7801388544844847127]

/-- SHA512 message padding: `0x80`, zeros to 112 mod 128, 128-bit big-endian
bit length. -/
def sha512Pad (msg : List Nat) : List Nat :=
  msg ++ [128] ++ List.replicate ((240 - (msg.length + 1) % 128) % 128) 0 ++
    be128 (8 * msg.length)

/-- The 80-entry SHA512 message schedule of one 128-byte block. -/
def sha512W (block : List Nat) : List Nat :=
  (List.range 80).foldl (fun w i =>
    if i < 16 then w ++ [be64At block i]
    else
      let w15 := w.getD (i - 15) 0
      let w2 := w.getD (i - 2) 0
      let s0 := (rotr64 w15 1) ^^^ (rotr64 w15 8) ^^^ (w15 >>> 7)
      let s1 := (rotr64 w2 19) ^^^ (rotr64 w2 61) ^^^ (w2 >>> 6)
      w ++ [(w.getD (i - 16) 0 + s0 + w.getD (i - 7) 0 + s1) % M64]) []

/-- One SHA512 round. -/
def sha512Step (w : List Nat) (st : S8) (i : Nat) : S8 :=
  let a := st.1
  let b := st.2.1
  let c := st.2.2.1
  let d := st.2.2.2.1
  let e := st.2.2.2.2.1
  let f := st.2.2.2.2.2.1
  let g := st.2.2.2.2.2.2.1
  let h := st.2.2.2.2.2.2.2
  let x1 := (rotr64 e 14) ^^^ (rotr64 e 18) ^^^ (rotr64 e 41)
  let ch := (e &&& f) ^^^ ((mask64 ^^^ e) &&& g)
  let t1 := (h + x1 + ch + sha512K.getD i 0 + w.getD i 0) % M64
  let x0 := (rotr64 a 28) ^^^ (rotr64 a 34) ^^^ (rotr64 a 39)
  let mj := (a &&& b) ^^^ (a &&& c) ^^^ (b &&& c)
  let t2 := (x0 + mj) % M64
  ((t1 + t2) % M64, a, b, c, (d + t1) % M64, e, f, g)

/-- SHA512 compression of one 128-byte block. -/
def sha512Compress (st : S8) (block : List Nat) : S8 :=
  let r := (List.range 80).foldl (sha512Step (sha512W block)) st
  ((st.1 + r.1) % M64, (st.2.1 + r.2.1) % M64, (st.2.2.1 + r.2.2.1) % M64,
    (st.2.2.2.1 + r.2.2.2.1) % M64, (st.2.2.2.2.1 + r.2.2.2.2.1) % M64,
    (st.2.2.2.2.2.1 + r.2.2.2.2.2.1) % M64,
    (st.2.2.2.2.2.2.1 + r.2.2.2.2.2.2.1) % M64,
    (st.2.2.2.2.2.2.2 + r.2.2.2.2.2.2.2) % M64)

/-- SHA512 initial state. -/
def sha512Init : S8 :=
  (7640891576956012808, 13503953896175478587, 4354685564936845355,
    11912009170470909681, 5840696475078001361, 11170449401992604703,
    2270897969802886507, 6620516959819538809)

/-- SHA512 state after absorbing the whole padded message. -/
def sha512FinalState (msg : List Nat) : S8 :=
  (chunks 128 (sha512Pad msg)).foldl sha512Compress sha512Init

/-- The 64 digest bytes of SHA512. -/
def sha512Hash (msg : List Nat) : List Nat :=
  let st := sha512FinalState msg
  be64 st.1 ++ be64 st.2.1 ++ be64 st.2.2.1 ++ be64 st.2.2.2.1 ++
    be64 st.2.2.2.2.1 ++ be64 st.2.2.2.2.2.1 ++ be64 st.2.2.2.2.2.2.1 ++
    be64 st.2.2.2.2.2.2.2


/-! ## The program model (src/main.rs)

`Args` mirrors the clap-parsed `Args` struct.  Printing to stdout is
modelled as the list of emitted items: verbose diagnostics (`OutItem.diag`)
and digest rows (`OutItem.row`).  Terminal colouring (the `colored` crate)
only styles the text and is dropped.  A digest row renders as
`LABEL | SUBJECT | HEX` (`print_hash` passes `"-"` as the subject,
`print_file_hash` the file name). -/

/-- The command-line arguments (the clap `Args` struct of src/main.rs). -/
structure Args where
  sha1 : Bool
  sha256 : Bool
  sha512 : Bool
  md5 : Bool
  file : Option String
  directory : Option String
  stdin : Bool
  verbose : Bool
  input : Option String
deriving DecidableEq, Repr

/-- One printed digest row: label, subject and hex digest (colours dropped). -/
structure DigestRow where
  label : String
  subject : String
  hexDigest : String
deriving DecidableEq, Repr

/-- Render a row the way `print_hash` / `print_file_hash` print it. -/
def renderRow (r : DigestRow) : String :=
  r.label ++ " | " ++ r.subject ++ " | " ++ r.hexDigest

/-- One line of stdout: a verbose diagnostic or a digest row. -/
inductive OutItem where
  | diag (s : String)
  | row (r : DigestRow)
deriving DecidableEq, Repr

/-- The digest rows among a list of output items. -/
def rowsOf (items : List OutItem) : List DigestRow :=
  items.filterMap fun it =>
    match it with
    | .diag _ => none
    | .row r => some r

/-- The named algorithms, in the order their flags are declared. -/
inductive Alg where
  | sha1
  | sha256
  | sha512
  | md5
deriving DecidableEq, Repr

/-- Dispatch to the digest primitive of one algorithm. -/
def algDigest (a : Alg) (data : List Nat) : List Nat :=
  match a with
  | .sha1 => sha1Hash data
  | .sha256 => sha256Hash data
  | .sha512 => sha512Hash data
  | .md5 => md5Hash data

/-- The fixed-width (8-character) label `calculate_hashes` prints. -/
def label8 (a : Alg) : String :=
  match a with
  | .sha1 => "SHA1    "
  | .sha256 => "SHA256  "
  | .sha512 => "SHA512  "
  | .md5 => "MD5     "

/-- The canonical order in which `calculate_hashes` runs the algorithms:
SHA1, SHA256, SHA512, MD5. -/
def canonicalOrder : List Alg := [.sha1, .sha256, .sha512, .md5]

/-- `show_all`: no algorithm flag was set (src/main.rs line 71). -/
def showAll (args : Args) : Bool :=
  !args.sha1 && !args.sha256 && !args.sha512 && !args.md5

/-- The raw flag of one algorithm. -/
def algFlag (args : Args) (a : Alg) : Bool :=
  match a with
  | .sha1 => args.sha1
  | .sha256 => args.sha256
  | .sha512 => args.sha512
  | .md5 => args.md5

/-- Whether `calculate_hashes` runs algorithm `a` under `args`. -/
def algSelected (args : Args) (a : Alg) : Bool :=
  showAll args || algFlag args a

/-- The verbose progress notice printed before one algorithm runs. -/
def calcDiag (a : Alg) : String :=
  match a with
  | .sha1 => "Calculating SHA1... "
  | .sha256 => "Calculating SHA256... "
  | .sha512 => "Calculating SHA512... "
  | .md5 => "Calculating MD5... "

/-- The row `calculate_hashes` prints for algorithm `a` on `data`. -/
def algRow (a : Alg) (data : List Nat) : DigestRow :=
  ⟨label8 a, "-", hexEncode (algDigest a data)⟩

/-- The verbose diagnostics plus row of one algorithm section. -/
def calcSection (args : Args) (a : Alg) (data : List Nat) : List OutItem :=
  if showAll args || algFlag args a then
    (if args.verbose then [.diag (calcDiag a)] else []) ++ [.row (algRow a data)]
  else []

/-- `calculate_hashes` (src/main.rs lines 69-120) as the list of stdout
items it emits, in order. -/
def calculate_hashes (data : List Nat) (args : Args) : List OutItem :=
  (if args.verbose then
    [.diag ("Input size: " ++ toString data.length ++ " bytes")]
  else []) ++
  calcSection args .sha1 data ++ calcSection args .sha256 data ++
  calcSection args .sha512 data ++ calcSection args .md5 data

/-! ## Directory mode (`process_directory`, src/main.rs lines 122-166)

A directory listing is modelled as the list of entries `read_dir` yields, in
filesystem order.  An entry is either a subdirectory or a file; a file
carries `none` as content when `fs::read` on it would fail, and `none` as
name when its`file_name` cannot be decoded to UTF-8 (`to_str` fails). -/

/-- One entry of the directory listing. -/
inductive Entry where
  | dir (name : Option String)
  | file (name : Option String) (content : Option (List Nat))
deriving DecidableEq, Repr

/-- Outcome of `process_directory`: validation failure (message on stderr
and `exit(1)` before any directory I/O), success with the printed rows, or
an I/O error (`Err` propagated out of `main`, exit code 1) after the rows
already printed. -/
inductive ProcResult where
  | validationError
  | ok (rows : List DigestRow)
  | ioError (rows : List DigestRow)
deriving DecidableEq, Repr

/-- The number of set algorithm flags (src/main.rs lines 124-125). -/
def selectedCount (args : Args) : Nat :=
  [args.sha1, args.sha256, args.sha512, args.md5].count true

/-- The directory-mode label of the single selected algorithm
(`print_file_hash` receives the unpadded names). -/
def dirLabel (args : Args) : String :=
  if args.sha1 then "SHA1"
  else if args.sha256 then "SHA256"
  else if args.sha512 then "SHA512"
  else if args.md5 then "MD5"
  else ""

/-- The row the directory loop prints for a file entry: subject is the
base name, `"unknown"` when it cannot be decoded; the if/else-if chain on
the flags picks the algorithm (src/main.rs lines 141-163).  `none` when no
flag is set (unreachable after validation). -/
def fileRow (args : Args) (name : Option String) (data : List Nat) :
    Option DigestRow :=
  let fname := name.getD "unknown"
  if args.sha1 then some ⟨"SHA1", fname, hexEncode (sha1Hash data)⟩
  else if args.sha256 then some ⟨"SHA256", fname, hexEncode (sha256Hash data)⟩
  else if args.sha512 then some ⟨"SHA512", fname, hexEncode (sha512Hash data)⟩
  else if args.md5 then some ⟨"MD5", fname, hexEncode (md5Hash data)⟩
  else none

/-- The `for entry in fs::read_dir(dir)?` loop: skip directories, abort with
`Err` on a failing read (`fs::read(&path)?`), otherwise print the file row
and continue. -/
def procGo (args : Args) : List Entry → ProcResult
  | [] => .ok []
  | .dir _ :: rest => procGo args rest
  | .file _ none :: _ => .ioError []
  | .file name (some data) :: rest =>
    match procGo args rest with
    | .ok rs => .ok ((fileRow args name data).toList ++ rs)
    | .ioError rs => .ioError ((fileRow args name data).toList ++ rs)
    | .validationError => .validationError

/-- `process_directory` (src/main.rs lines 122-166): exactly-one-flag
validation, then the entry loop. -/
def process_directory (entries : List Entry) (args : Args) : ProcResult :=
  if selectedCount args ≠ 1 then .validationError
  else procGo args entries

/-- An entry the loop gets past without aborting: a subdirectory, or a file
whose read succeeds. -/
def entryOk (e : Entry) : Bool :=
  match e with
  | .dir _ => true
  | .file _ c => c.isSome

/-- The row (if any) a single entry contributes. -/
def entryRow (args : Args) (e : Entry) : Option DigestRow :=
  match e with
  | .dir _ => none
  | .file _ none => none
  | .file name (some data) => fileRow args name data

/-! ## `main` (src/main.rs lines 168-204) -/

/-- The outside world `main` reads from: the content of the `--file` path
(`none` = the read fails), stdin (`none` = the read fails), and the
directory listing of the `--directory` path. -/
structure World where
  fileContent : Option (List Nat)
  stdinContent : Option (List Nat)
  dirEntries : List Entry
deriving Repr

/-- What a run of `main` does: directory mode, exit(1) after a failed
file/stdin read, `calculate_hashes` output on the resolved bytes, or the
`unwrap` panic on a missing positional input (clap prevents it: `input` is
required unless `--file`, `--stdin` or `--directory` is present). -/
inductive MainResult where
  | procDir (r : ProcResult)
  | readError
  | output (items : List OutItem)
  | panicNoInput
deriving DecidableEq, Repr

/-- `main`: directory mode wins, then `--file`, then `--stdin`, then the
positional literal (src/main.rs lines 168-204). -/
def mainRun (args : Args) (w : World) : MainResult :=
  match args.directory with
  | some _ => .procDir (process_directory w.dirEntries args)
  | none =>
    match args.file with
    | some _ =>
      match w.fileContent with
      | some data => .output (calculate_hashes data args)
      | none => .readError
    | none =>
      if args.stdin then
        match w.stdinContent with
        | some data => .output (calculate_hashes data args)
        | none => .readError
      else
        match args.input with
        | some s => .output (calculate_hashes (strBytes s) args)
        | none => .panicNoInput

/-! ## Helper lemmas -/

/-- Character-count of the hex chars of a byte list: two per byte. -/
theorem length_foldr_hexByte (bs : List Nat) :
    (bs.foldr (fun b acc => hexByte b ++ acc) []).length = 2 * bs.length := by
  induction bs with
  | nil => rfl
  | cons b t ih =>
    simp only [List.foldr_cons, List.length_append]
    rw [ih]
    simp only [hexByte, List.length_cons, List.length_nil]
    omega

/-- Hex encoding yields two characters per byte. -/
theorem hexEncode_length (bs : List Nat) :
    (hexEncode bs).length = 2 * bs.length := by
  have h : (hexEncode bs).length =
      (bs.foldr (fun b acc => hexByte b ++ acc) []).length := rfl
  rw [h, length_foldr_hexByte]

/-- A string all of whose characters are lowercase hex digits. -/
def isLowerHex (s : String) : Prop := ∀ c ∈ s.data, c ∈ hexDigits

/-- Any lookup into the hex digit table lands in the table. -/
theorem hexDigits_getD_mem (i : Nat) : hexDigits.getD i '0' ∈ hexDigits := by
  rcases Nat.lt_or_ge i 16 with h | h
  · interval_cases i <;> decide
  · have hl : hexDigits.length ≤ i := h
    rw [List.getD_eq_default _ _ hl]
    decide

/-- Both characters of a hex-encoded byte are lowercase hex digits. -/
theorem hexByte_mem (b : Nat) (c : Char) (hc : c ∈ hexByte b) :
    c ∈ hexDigits := by
  simp only [hexByte, List.mem_cons, List.not_mem_nil, or_false] at hc
  rcases hc with h | h <;> subst h <;> exact hexDigits_getD_mem _

/-- Hex encodings consist of lowercase hex digits only. -/
theorem isLowerHex_hexEncode (bs : List Nat) : isLowerHex (hexEncode bs) := by
  induction bs with
  | nil => intro c hc; simp [hexEncode] at hc
  | cons b t ih =>
    intro c hc
    have hdata : (hexEncode (b :: t)).data = hexByte b ++ (hexEncode t).data := rfl
    rw [hdata] at hc
    rcases List.mem_append.mp hc with h | h
    · exact hexByte_mem b c h
    · exact ih c h

/-- MD5 digests are 16 bytes. -/
theorem md5Hash_length (msg : List Nat) : (md5Hash msg).length = 16 := by
  simp [md5Hash, le32]

/-- SHA1 digests are 20 bytes. -/
theorem sha1Hash_length (msg : List Nat) : (sha1Hash msg).length = 20 := by
  simp [sha1Hash, be32]

/-- SHA256 digests are 32 bytes. -/
theorem sha256Hash_length (msg : List Nat) : (sha256Hash msg).length = 32 := by
  simp [sha256Hash, be32]

/-- SHA512 digests are 64 bytes. -/
theorem sha512Hash_length (msg : List Nat) : (sha512Hash msg).length = 64 := by
  simp [sha512Hash, be64, be32]

/-! ## The claims -/

/-- C7: for every input, digests have the fixed per-algorithm length —
MD5 16 bytes (32 hex characters), SHA1 20 (40), SHA256 32 (64),
SHA512 64 (128). -/
theorem c7_digest_lengths (data : List Nat) :
    (md5Hash data).length = 16 ∧ (hexEncode (md5Hash data)).length = 32 ∧
    (sha1Hash data).length = 20 ∧ (hexEncode (sha1Hash data)).length = 40 ∧
    (sha256Hash data).length = 32 ∧ (hexEncode (sha256Hash data)).length = 64 ∧
    (sha512Hash data).length = 64 ∧ (hexEncode (sha512Hash data)).length = 128 := by
  refine ⟨md5Hash_length data, ?_, sha1Hash_length data, ?_,
    sha256Hash_length data, ?_, sha512Hash_length data, ?_⟩ <;>
    rw [hexEncode_length] <;>
    simp [md5Hash_length, sha1Hash_length, sha256Hash_length, sha512Hash_length]

/-- C9: hashing is deterministic — the emitted output is a pure function of
the input bytes and the parsed arguments; equal inputs give equal digests
and equal output. -/
theorem c9_deterministic (a : Alg) (bs1 bs2 : List Nat) (args1 args2 : Args)
    (hb : bs1 = bs2) (ha : args1 = args2) :
    hexEncode (algDigest a bs1) = hexEncode (algDigest a bs2) ∧
    calculate_hashes bs1 args1 = calculate_hashes bs2 args2 := by
  subst hb; subst ha; exact ⟨rfl, rfl⟩

/-- Witness for C9 at a concrete input. -/
theorem c9_deterministic_witness :
    hexEncode (algDigest .md5 [97]) = hexEncode (algDigest .md5 [97]) ∧
    calculate_hashes [97] ⟨true, false, false, false, none, none, false, false, some "a"⟩ =
      calculate_hashes [97] ⟨true, false, false, false, none, none, false, false, some "a"⟩ :=
  c9_deterministic .md5 [97] [97] _ _ rfl rfl

/-- The entry loop never produces a validation failure: validation happens
only before it. -/
theorem procGo_ne_validationError (args : Args) (entries : List Entry) :
    procGo args entries ≠ .validationError := by
  induction entries with
  | nil => simp [procGo]
  | cons e rest ih =>
    cases e with
    | dir n => simpa [procGo] using ih
    | file n c =>
      cases c with
      | none => simp [procGo]
      | some data =>
        simp only [procGo]
        cases h : procGo args rest with
        | validationError => exact absurd h ih
        | ok rs => simp
        | ioError rs => simp

/-- Running the loop over entries that all pass yields exactly their rows. -/
theorem procGo_all_ok (args : Args) (entries : List Entry)
    (h : entries.all entryOk = true) :
    procGo args entries = .ok (entries.filterMap (entryRow args)) := by
  induction entries with
  | nil => simp [procGo]
  | cons e rest ih =>
    rw [List.all_cons, Bool.and_eq_true] at h
    cases e with
    | dir n => simp [procGo, entryRow, ih h.2]
    | file n c =>
      cases c with
      | none => simp [entryOk] at h
      | some data =>
        simp only [procGo, ih h.2]
        cases hf : fileRow args n data <;>
          simp [entryRow, hf, List.filterMap_cons]

/-- A failing read aborts the loop: the rows already printed are those of
the passing entries before it, and nothing after the failure matters. -/
theorem procGo_fail (args : Args) (pre : List Entry) (name : Option String)
    (rest : List Entry) (h : pre.all entryOk = true) :
    procGo args (pre ++ Entry.file name none :: rest) =
      .ioError (pre.filterMap (entryRow args)) := by
  induction pre with
  | nil => simp [procGo]
  | cons e t ih =>
    rw [List.all_cons, Bool.and_eq_true] at h
    cases e with
    | dir n2 => simp [procGo, entryRow, ih h.2]
    | file n2 c =>
      cases c with
      | none => simp [entryOk] at h
      | some data =>
        simp only [List.cons_append, procGo, List.append_eq]
        rw [ih h.2]
        cases hf : fileRow args n2 data <;>
          simp [entryRow, hf, List.filterMap_cons]

/-- C1: in directory mode, unless exactly one algorithm flag is set the run
fails with the validation error (exit code 1) independently of the
directory contents — no directory I/O is consulted; with exactly one flag
set, validation passes and the loop runs. -/
theorem c1_directory_validation (args : Args) (entries entries2 : List Entry) :
    (selectedCount args ≠ 1 →
      process_directory entries args = .validationError ∧
      process_directory entries args = process_directory entries2 args) ∧
    (selectedCount args = 1 →
      process_directory entries args ≠ .validationError) := by
  constructor
  · intro h
    simp [process_directory, h]
  · intro h
    have hpd : process_directory entries args = procGo args entries := by
      simp [process_directory, h]
    rw [hpd]
    exact procGo_ne_validationError args entries

/-- Witness for C1: zero flags fail validation, one flag passes it. -/
theorem c1_directory_validation_witness :
    process_directory [Entry.file (some "a") (some [97])]
        ⟨false, false, false, false, none, some "d", false, false, none⟩ =
      .validationError ∧
    process_directory [Entry.file (some "a") (some [97])]
        ⟨true, false, false, false, none, some "d", false, false, none⟩ ≠
      .validationError :=
  ⟨((c1_directory_validation _ _ ([] : List Entry)).1 (by decide)).1,
    (c1_directory_validation _ _ ([] : List Entry)).2 (by decide)⟩

/-- C3: in directory mode a failing file read aborts the run with an I/O
error (exit code 1); the rows of the files processed before the failure
are already printed, and no entry after the failing one influences the
outcome. -/
theorem c3_abort_on_read_failure (args : Args) (pre rest rest2 : List Entry)
    (name : Option String) (h1 : selectedCount args = 1)
    (h2 : pre.all entryOk = true) :
    process_directory (pre ++ Entry.file name none :: rest) args =
      .ioError (pre.filterMap (entryRow args)) ∧
    process_directory (pre ++ Entry.file name none :: rest) args =
      process_directory (pre ++ Entry.file name none :: rest2) args := by
  constructor
  · simp only [process_directory, h1]
    simpa using procGo_fail args pre name rest h2
  · have hpd : ∀ es : List Entry, process_directory es args = procGo args es := by
      intro es
      simp [process_directory, h1]
    rw [hpd, hpd, procGo_fail args pre name rest h2,
      procGo_fail args pre name rest2 h2]

/-- Witness for C3: with `--sha1`, a good file then a failing file then a
sibling; only the good file's row is reported and the sibling is
irrelevant. -/
theorem c3_abort_on_read_failure_witness :
    process_directory
        [Entry.file (some "a.txt") (some [97]), Entry.file (some "bad") none,
          Entry.file (some "z.txt") (some [122])]
        ⟨true, false, false, false, none, some "d", false, false, none⟩ =
      .ioError [⟨"SHA1", "a.txt",
        "86f7e437faa5a7fce15d1ddcb9eaeaea377667b8"⟩] ∧
    process_directory
        [Entry.file (some "a.txt") (some [97]), Entry.file (some "bad") none,
          Entry.file (some "z.txt") (some [122])]
        ⟨true, false, false, false, none, some "d", false, false, none⟩ =
      process_directory
        [Entry.file (some "a.txt") (some [97]), Entry.file (some "bad") none]
        ⟨true, false, false, false, none, some "d", false, false, none⟩ := by
  have h := c3_abort_on_read_failure
    ⟨true, false, false, false, none, some "d", false, false, none⟩
    [Entry.file (some "a.txt") (some [97])]
    [Entry.file (some "z.txt") (some [122])] [] (some "bad")
    (by decide) (by decide)
  simp only [List.cons_append, List.nil_append] at h
  refine ⟨?_, h.2⟩
  rw [h.1]
  decide

/-- C6: in directory mode with exactly one flag set, subdirectory entries
produce no row and do not abort their siblings, and every successfully
read file produces exactly one row whose subject is its base name, with
`"unknown"` substituted when the name cannot be decoded. -/
theorem c6_directory_rows (args : Args) (entries : List Entry)
    (h1 : selectedCount args = 1) :
    (entries.all entryOk = true →
      process_directory entries args = .ok (entries.filterMap (entryRow args))) ∧
    (∀ name, entryRow args (.dir name) = none) ∧
    (∀ name data, ∃ r, entryRow args (.file name (some data)) = some r ∧
      r.subject = name.getD "unknown") := by
  refine ⟨?_, fun name => rfl, ?_⟩
  · intro hok
    simp only [process_directory, h1]
    simpa using procGo_all_ok args entries hok
  · intro name data
    rcases args with ⟨s1, s2, s5, m, f, d, st, v, i⟩
    cases s1 <;> cases s2 <;> cases s5 <;> cases m <;>
      first
        | exact ⟨_, rfl, rfl⟩
        | (have h0 : selectedCount ⟨false, false, false, false, f, d, st, v, i⟩ = 0 := rfl
           omega)

/-- Witness for C6: a subdirectory between two files, one with an
undecodable name. -/
theorem c6_directory_rows_witness :
    process_directory
        [Entry.file (some "a.txt") (some [97]), Entry.dir (some "sub"),
          Entry.file none (some [97])]
        ⟨false, false, false, true, none, some "d", false, false, none⟩ =
      .ok [⟨"MD5", "a.txt", "0cc175b9c0f1b6a831c399e269772661"⟩,
        ⟨"MD5", "unknown", "0cc175b9c0f1b6a831c399e269772661"⟩] := by
  have h := c6_directory_rows
    ⟨false, false, false, true, none, some "d", false, false, none⟩
    [Entry.file (some "a.txt") (some [97]), Entry.dir (some "sub"),
      Entry.file none (some [97])] (by decide)
  rw [h.1 (by decide)]
  decide

/-- `rowsOf` distributes over append. -/
theorem rowsOf_append (a b : List OutItem) :
    rowsOf (a ++ b) = rowsOf a ++ rowsOf b := by
  simp [rowsOf]

/-- The digest rows `calculate_hashes` emits are exactly the selected
algorithms of the canonical order, in order. -/
theorem calc_rows_eq (data : List Nat) (args : Args) :
    rowsOf (calculate_hashes data args) =
      (canonicalOrder.filter (algSelected args)).map (fun a => algRow a data) := by
  rcases args with ⟨s1, s2, s5, m, f, d, st, v, i⟩
  cases s1 <;> cases s2 <;> cases s5 <;> cases m <;> cases v <;>
    simp [calculate_hashes, calcSection, rowsOf, rowsOf_append, canonicalOrder,
      algSelected, algFlag, showAll]

/-- C2: with no algorithm flag all four algorithms run, otherwise exactly
the flagged subset, always in the fixed canonical order SHA1, SHA256,
SHA512, MD5, and each selected algorithm contributes exactly one row. -/
theorem c2_canonical_order (data : List Nat) (args : Args) :
    rowsOf (calculate_hashes data args) =
      (canonicalOrder.filter (algSelected args)).map (fun a => algRow a data) ∧
    ∀ a : Alg, algSelected args a = true →
      ((rowsOf (calculate_hashes data args)).map DigestRow.label).count
        (label8 a) = 1 := by
  refine ⟨calc_rows_eq data args, ?_⟩
  intro a ha
  rw [calc_rows_eq data args]
  rcases args with ⟨s1, s2, s5, m, f, d, st, v, i⟩
  cases s1 <;> cases s2 <;> cases s5 <;> cases m <;> cases a <;>
    simp_all [canonicalOrder, algSelected, algFlag, showAll, algRow, label8,
      List.count_cons, List.count_nil]

/-- Witness for C2 at a concrete input: `--sha256` alone yields the single
SHA256 row. -/
theorem c2_canonical_order_witness :
    rowsOf (calculate_hashes [97]
        ⟨false, true, false, false, none, none, false, false, some "a"⟩) =
      (canonicalOrder.filter (algSelected
        ⟨false, true, false, false, none, none, false, false, some "a"⟩)).map
          (fun a => algRow a [97]) ∧
    ((rowsOf (calculate_hashes [97]
        ⟨false, true, false, false, none, none, false, false, some "a"⟩)).map
          DigestRow.label).count (label8 .sha256) = 1 :=
  ⟨(c2_canonical_order [97] _).1,
    (c2_canonical_order [97] _).2 .sha256 (by decide)⟩

/-- `fileRow` ignores the `verbose` flag. -/
theorem fileRow_verbose (args : Args) (v : Bool) (n : Option String)
    (d : List Nat) :
    fileRow { args with verbose := v } n d = fileRow args n d := by
  rcases args with ⟨s1, s2, s5, m, f, dd, st, v0, i⟩
  rfl

/-- The directory loop ignores the `verbose` flag. -/
theorem procGo_verbose (args : Args) (v : Bool) (entries : List Entry) :
    procGo { args with verbose := v } entries = procGo args entries := by
  induction entries with
  | nil => rfl
  | cons e rest ih =>
    cases e with
    | dir n => simpa [procGo] using ih
    | file n c =>
      cases c with
      | none => rfl
      | some data =>
        simp only [procGo, ih, fileRow_verbose]

/-- C8: the verbose flag does not alter results — the digest rows of
`calculate_hashes` and the whole outcome of `process_directory` are the
same with verbose set and unset; verbose only adds diagnostic lines. -/
theorem c8_verbose_no_effect (data : List Nat) (args : Args)
    (entries : List Entry) (v1 v2 : Bool) :
    rowsOf (calculate_hashes data { args with verbose := v1 }) =
      rowsOf (calculate_hashes data { args with verbose := v2 }) ∧
    process_directory entries { args with verbose := v1 } =
      process_directory entries { args with verbose := v2 } := by
  constructor
  · rw [calc_rows_eq, calc_rows_eq]
    rcases args with ⟨s1, s2, s5, m, f, d, st, v0, i⟩
    rfl
  · rcases args with ⟨s1, s2, s5, m, f, d, st, v0, i⟩
    show process_directory entries ⟨s1, s2, s5, m, f, d, st, v1, i⟩ =
      process_directory entries ⟨s1, s2, s5, m, f, d, st, v2, i⟩
    unfold process_directory
    have h1 : procGo ⟨s1, s2, s5, m, f, d, st, v1, i⟩ entries =
        procGo ⟨s1, s2, s5, m, f, d, st, v0, i⟩ entries :=
      procGo_verbose ⟨s1, s2, s5, m, f, d, st, v0, i⟩ v1 entries
    have h2 : procGo ⟨s1, s2, s5, m, f, d, st, v2, i⟩ entries =
        procGo ⟨s1, s2, s5, m, f, d, st, v0, i⟩ entries :=
      procGo_verbose ⟨s1, s2, s5, m, f, d, st, v0, i⟩ v2 entries
    have hs : selectedCount ⟨s1, s2, s5, m, f, d, st, v1, i⟩ =
        selectedCount ⟨s1, s2, s5, m, f, d, st, v2, i⟩ := rfl
    rw [h1, h2, hs]

/-- The rows a `process_directory` outcome has printed. -/
def procRows (r : ProcResult) : List DigestRow :=
  match r with
  | .validationError => []
  | .ok rs => rs
  | .ioError rs => rs

/-- A row produced by `fileRow` has the file's base name (or `"unknown"`)
as subject, the label of the selected algorithm, and a hex-encoded
digest. -/
theorem fileRow_spec (args : Args) (n : Option String) (d : List Nat)
    (r : DigestRow) (h : fileRow args n d = some r) :
    r.subject = n.getD "unknown" ∧ r.label = dirLabel args ∧
      ∃ bs, r.hexDigest = hexEncode bs := by
  rcases args with ⟨s1, s2, s5, m, f, d2, st, v, i⟩
  cases s1 <;> cases s2 <;> cases s5 <;> cases m <;>
    first
      | (obtain rfl := Option.some.inj h
         exact ⟨rfl, rfl, _, rfl⟩)
      | exact absurd h (by simp [fileRow])

/-- Every row the directory loop prints comes from some successfully read
file entry via `fileRow`. -/
theorem procRows_mem (args : Args) (entries : List Entry) (r : DigestRow)
    (h : r ∈ procRows (procGo args entries)) :
    ∃ n d, Entry.file n (some d) ∈ entries ∧ fileRow args n d = some r := by
  induction entries with
  | nil => simp [procGo, procRows] at h
  | cons e rest ih =>
    cases e with
    | dir nm =>
      have h2 : r ∈ procRows (procGo args rest) := by simpa [procGo] using h
      rcases ih h2 with ⟨n, d, hm, hf⟩
      exact ⟨n, d, List.mem_cons_of_mem _ hm, hf⟩
    | file nm c =>
      cases c with
      | none => simp [procGo, procRows] at h
      | some dd =>
        simp only [procGo] at h
        cases hgo : procGo args rest with
        | validationError => rw [hgo] at h; simp [procRows] at h
        | ok rs =>
          rw [hgo] at h
          simp only [procRows, List.mem_append] at h
          rcases h with h | h
          · have hf : fileRow args nm dd = some r := by
              cases hfr : fileRow args nm dd <;> rw [hfr] at h <;>
                simp_all [Option.toList]
            exact ⟨nm, dd, List.mem_cons_self _ _, hf⟩
          · have h3 : r ∈ procRows (procGo args rest) := by
              rw [hgo]; exact h
            rcases ih h3 with ⟨n, d, hm, hf⟩
            exact ⟨n, d, List.mem_cons_of_mem _ hm, hf⟩
        | ioError rs =>
          rw [hgo] at h
          simp only [procRows, List.mem_append] at h
          rcases h with h | h
          · have hf : fileRow args nm dd = some r := by
              cases hfr : fileRow args nm dd <;> rw [hfr] at h <;>
                simp_all [Option.toList]
            exact ⟨nm, dd, List.mem_cons_self _ _, hf⟩
          · have h3 : r ∈ procRows (procGo args rest) := by
              rw [hgo]; exact h
            rcases ih h3 with ⟨n, d, hm, hf⟩
            exact ⟨n, d, List.mem_cons_of_mem _ hm, hf⟩

/-- C5: every output row has the shape `LABEL | SUBJECT | HEX`; in
single-input mode the subject is `"-"` and the labels are fixed-width
(8 characters); in directory mode the subject is the entry's base name
(`"unknown"` when undecodable), all rows of one invocation share one
label, and the digest is lowercase hex. -/
theorem c5_row_format (data : List Nat) (args : Args) (entries : List Entry) :
    (∀ r ∈ rowsOf (calculate_hashes data args),
      renderRow r = r.label ++ " | " ++ r.subject ++ " | " ++ r.hexDigest ∧
      r.subject = "-" ∧ r.label.length = 8 ∧ isLowerHex r.hexDigest) ∧
    (∀ r ∈ procRows (process_directory entries args),
      renderRow r = r.label ++ " | " ++ r.subject ++ " | " ++ r.hexDigest ∧
      isLowerHex r.hexDigest ∧
      (∃ n d, Entry.file n (some d) ∈ entries ∧
        r.subject = n.getD "unknown") ∧
      ∀ r2 ∈ procRows (process_directory entries args), r2.label = r.label) := by
  constructor
  · intro r hr
    rw [calc_rows_eq] at hr
    rcases List.mem_map.mp hr with ⟨a, ha, hra⟩
    subst hra
    refine ⟨rfl, rfl, ?_, isLowerHex_hexEncode _⟩
    cases a <;> simp only [algRow, label8] <;> decide
  · intro r hr
    by_cases hc : selectedCount args = 1
    · have hpd : process_directory entries args = procGo args entries := by
        simp [process_directory, hc]
      rw [hpd] at hr
      rcases procRows_mem args entries r hr with ⟨n, d, hm, hf⟩
      rcases fileRow_spec args n d r hf with ⟨hs, hl, bs, hh⟩
      refine ⟨rfl, ?_, ⟨n, d, hm, hs⟩, ?_⟩
      · rw [hh]; exact isLowerHex_hexEncode bs
      · intro r2 hr2
        rw [hpd] at hr2
        rcases procRows_mem args entries r2 hr2 with ⟨n2, d2, hm2, hf2⟩
        rcases fileRow_spec args n2 d2 r2 hf2 with ⟨hs2, hl2, hbs2⟩
        rw [hl2, hl]
    · have hpd : process_directory entries args = .validationError := by
        simp [process_directory, hc]
      rw [hpd] at hr
      simp [procRows] at hr

/-- Witness for C5 at a concrete run: the SHA1 row of the literal `"a"`
and a one-file directory run. -/
theorem c5_row_format_witness :
    (renderRow ⟨"SHA1    ", "-", "86f7e437faa5a7fce15d1ddcb9eaeaea377667b8"⟩ =
        "SHA1    " ++ " | " ++ "-" ++ " | " ++
          "86f7e437faa5a7fce15d1ddcb9eaeaea377667b8" ∧
      ("-" : String) = "-" ∧ ("SHA1    " : String).length = 8 ∧
      isLowerHex "86f7e437faa5a7fce15d1ddcb9eaeaea377667b8") ∧
    ∃ n d, Entry.file n (some d) ∈
        [Entry.file (some "a.txt") (some [97])] ∧
      ("a.txt" : String) = n.getD "unknown" := by
  have h := c5_row_format [97]
    ⟨true, false, false, false, none, none, false, false, some "a"⟩
    [Entry.file (some "a.txt") (some [97])]
  have h1 := h.1 ⟨"SHA1    ", "-", "86f7e437faa5a7fce15d1ddcb9eaeaea377667b8"⟩
    (by decide)
  have h2 := h.2 ⟨"SHA1", "a.txt", "86f7e437faa5a7fce15d1ddcb9eaeaea377667b8"⟩
    (by decide)
  exact ⟨h1, h2.2.2.1⟩

/-- C4 (as stated) fails: the spec's SHA1 vector for `"abc"` has only 39
hex characters — the program prints the full 40-character SHA1 digest,
which is not that string. -/
theorem c4_counterexample :
    hexEncode (sha1Hash (strBytes "abc")) ≠
      "a9993e364706816aba3e25717850c26c9cd0d89" := by
  decide

/-- C4 (amended): on the literal `"abc"` the program prints the standard
vectors — MD5 `900150983cd24fb0d6963f7d28e17f72`, SHA256
`ba7816bf8f01cfea414140de5dae2223b00361a396177a9cb410ff61f20015ad`, SHA1
`a9993e364706816aba3e25717850c26c9cd0d89d` (of which the spec's 39-char
value is the first 39 characters), SHA512 beginning
`ddaf35a193617abacc417349ae20413112e6fa4`; and MD5 of the empty input is
`d41d8cd98f00b204e9800998ecf8427e`. -/
theorem c4_amended_vectors :
    rowsOf (calculate_hashes (strBytes "abc")
        ⟨false, false, false, false, none, none, false, false, some "abc"⟩) =
      [⟨"SHA1    ", "-", "a9993e364706816aba3e25717850c26c9cd0d89d"⟩,
       ⟨"SHA256  ", "-",
         "ba7816bf8f01cfea414140de5dae2223b00361a396177a9cb410ff61f20015ad"⟩,
       ⟨"SHA512  ", "-",
         "ddaf35a193617abacc417349ae20413112e6fa4e89a97ea20a9eeee64b55d39a2192992a274fc1a836ba3c23a3feebbd454d4423643ce80e2a9ac94fa54ca49f"⟩,
       ⟨"MD5     ", "-", "900150983cd24fb0d6963f7d28e17f72"⟩] ∧
    (hexEncode (sha1Hash (strBytes "abc"))).data.take 39 =
      "a9993e364706816aba3e25717850c26c9cd0d89".data ∧
    (hexEncode (sha512Hash (strBytes "abc"))).data.take 39 =
      "ddaf35a193617abacc417349ae20413112e6fa4".data ∧
    hexEncode (md5Hash (strBytes "")) = "d41d8cd98f00b204e9800998ecf8427e" := by
  exact ⟨by decide, by decide, by decide, by decide⟩

/-- `fileRow` depends only on the four algorithm flags. -/
theorem fileRow_flags (a1 a2 : Args) (h1 : a1.sha1 = a2.sha1)
    (h2 : a1.sha256 = a2.sha256) (h5 : a1.sha512 = a2.sha512)
    (hm : a1.md5 = a2.md5) (n : Option String) (d : List Nat) :
    fileRow a1 n d = fileRow a2 n d := by
  rcases a1 with ⟨s1, s2, s5, m, f, dd, st, v, i⟩
  rcases a2 with ⟨t1, t2, t5, tm, g, ee, su, u, j⟩
  simp only at h1 h2 h5 hm
  subst h1; subst h2; subst h5; subst hm
  rfl

/-- The directory loop depends only on the four algorithm flags. -/
theorem procGo_flags (a1 a2 : Args) (h1 : a1.sha1 = a2.sha1)
    (h2 : a1.sha256 = a2.sha256) (h5 : a1.sha512 = a2.sha512)
    (hm : a1.md5 = a2.md5) (entries : List Entry) :
    procGo a1 entries = procGo a2 entries := by
  induction entries with
  | nil => rfl
  | cons e rest ih =>
    cases e with
    | dir n => simpa [procGo] using ih
    | file n c =>
      cases c with
      | none => rfl
      | some data =>
        simp only [procGo, ih, fileRow_flags a1 a2 h1 h2 h5 hm]

/-- `process_directory` depends only on the four algorithm flags (and the
entries). -/
theorem process_directory_flags (a1 a2 : Args) (h1 : a1.sha1 = a2.sha1)
    (h2 : a1.sha256 = a2.sha256) (h5 : a1.sha512 = a2.sha512)
    (hm : a1.md5 = a2.md5) (entries : List Entry) :
    process_directory entries a1 = process_directory entries a2 := by
  have hs : selectedCount a1 = selectedCount a2 := by
    simp [selectedCount, h1, h2, h5, hm]
  unfold process_directory
  rw [hs, procGo_flags a1 a2 h1 h2 h5 hm]

/-- C10: input-source precedence of `main` — `--directory` wins and
ignores `--file`, `--stdin` and the literal; then `--file` ignores
`--stdin` and the literal; then `--stdin` ignores the literal; the
positional literal is hashed only when none of the three is present. -/
theorem c10_input_precedence (args : Args) (w : World) :
    (∀ dp, args.directory = some dp →
      mainRun args w = .procDir (process_directory w.dirEntries args) ∧
      ∀ f2 st2 i2,
        mainRun { args with file := f2, stdin := st2, input := i2 } w =
          .procDir (process_directory w.dirEntries args)) ∧
    (args.directory = none → ∀ fp, args.file = some fp →
      (∀ data, w.fileContent = some data →
        mainRun args w = .output (calculate_hashes data args)) ∧
      (w.fileContent = none → mainRun args w = .readError) ∧
      ∀ st2 i2,
        mainRun { args with stdin := st2, input := i2 } w = mainRun args w) ∧
    (args.directory = none → args.file = none → args.stdin = true →
      (∀ data, w.stdinContent = some data →
        mainRun args w = .output (calculate_hashes data args)) ∧
      (w.stdinContent = none → mainRun args w = .readError) ∧
      ∀ i2, mainRun { args with input := i2 } w = mainRun args w) ∧
    (args.directory = none → args.file = none → args.stdin = false →
      ∀ s, args.input = some s →
        mainRun args w = .output (calculate_hashes (strBytes s) args)) := by
  rcases args with ⟨s1, s2, s5, m, f, d, st, v, i⟩
  refine ⟨?_, ?_, ?_, ?_⟩
  · intro dp hd
    simp only at hd
    subst hd
    refine ⟨rfl, ?_⟩
    intro f2 st2 i2
    show MainResult.procDir
        (process_directory w.dirEntries ⟨s1, s2, s5, m, f2, some dp, st2, v, i2⟩) = _
    rw [process_directory_flags ⟨s1, s2, s5, m, f2, some dp, st2, v, i2⟩
      ⟨s1, s2, s5, m, f, some dp, st, v, i⟩ rfl rfl rfl rfl w.dirEntries]
  · intro hd fp hf
    simp only at hd hf
    subst hd; subst hf
    refine ⟨?_, ?_, ?_⟩
    · intro data hw
      simp [mainRun, hw]
    · intro hw
      simp [mainRun, hw]
    · intro st2 i2
      cases hw : w.fileContent <;> simp only [mainRun, hw]
      rfl
  · intro hd hf hst
    simp only at hd hf hst
    subst hd; subst hf; subst hst
    refine ⟨?_, ?_, ?_⟩
    · intro data hw
      simp [mainRun, hw]
    · intro hw
      simp [mainRun, hw]
    · intro i2
      cases hw : w.stdinContent <;> simp only [mainRun, hw] <;> rfl
  · intro hd hf hst s hi
    simp only at hd hf hst hi
    subst hd; subst hf; subst hst; subst hi
    simp [mainRun]

/-- Witness for C10: a fully loaded invocation runs directory mode, and a
bare literal invocation hashes the literal. -/
theorem c10_input_precedence_witness :
    mainRun ⟨true, false, false, false, some "f.txt", some "dir", true, false,
        some "lit"⟩ ⟨some [1], some [2], []⟩ =
      .procDir (process_directory []
        ⟨true, false, false, false, some "f.txt", some "dir", true, false,
          some "lit"⟩) ∧
    mainRun ⟨false, false, false, false, none, none, false, false, some "ab"⟩
        ⟨none, none, []⟩ =
      .output (calculate_hashes (strBytes "ab")
        ⟨false, false, false, false, none, none, false, false, some "ab"⟩) :=
  ⟨((c10_input_precedence _ _).1 "dir" rfl).1,
    (c10_input_precedence _ _).2.2.2 rfl rfl rfl "ab" rfl⟩

end Shall







